import Mathlib

/-!
Verification of the WebM/Matroska → Opus PCM-assembly core of
`src/wordle_sonar/scripts/opus.wasm.js` (lines 1–227 of the file; the rest of
the file is generic runtime-bootstrapping glue that the specification puts
out of scope).

Shallow embedding conventions:
* A `DataView` over the container's bytes is modeled as a total function
  `Bytes := Nat → Nat`; every read masks with `% 256` so a value is always a
  byte.  Positions are `Int` because the walker's cursor arithmetic
  (`position += size`) is done on JS numbers and `size` can be negative
  after 32-bit wrap-around; a negative position is clamped by `Int.toNat`
  (no theorem below exercises a negative or out-of-range read).
* JS 32-bit semantics of `<<` in the varint reader are modeled by `toInt32`.
* The two occurrences of `Math.floor(ns * 0.000048)` are modeled with exact
  rational arithmetic (`ns * 48 / 1000000`, floor division): the claims and
  the code state the same formula, and the double-precision rounding of the
  product is abstracted away identically on both sides.
* Module-level mutable state (`_decoder`, `_audioBuffer`, `_outputOffset`)
  becomes the explicit record `DecState`; JS exceptions become the result
  type `Res`, which keeps the state at the moment of the throw, because the
  JS module variables retain their values when an exception propagates.
* The native decoder (`Module._create_decoder` / `Module._decode_frame`) is
  an external collaborator; it is modeled by an `Oracle` record supplying
  the created handle and, per frame, the return value and the contents of
  the native output scratch region.
* The recursive walker `ParseMaster` takes an explicit fuel argument to make
  the recursion structural; running out of fuel is a distinct error, so any
  `ok` result is a faithful terminating run of the JS loop.
-/

/-- The container bytes, as exposed by the JS `DataView`. -/
def Bytes : Type := Nat → Nat

/-- Build a `Bytes` from a concrete list (out-of-range reads give 0;
no theorem below depends on an out-of-range read). -/
def bytesOf (l : List Nat) : Bytes := fun i => l.getD i 0

/-- `data.getUint8(i)`: a read always yields a byte. -/
def byteAt (data : Bytes) (i : Int) : Nat := data i.toNat % 256

/-- JS `ToInt32`: wrap an integer into `[-2^31, 2^31)`. -/
def toInt32 (v : Int) : Int := (v + 2 ^ 31) % 2 ^ 32 - 2 ^ 31

/-- `VINT_SIZES` (source line 4, verbatim): maps the leading byte of a
varint to the total byte length of the varint (0 = invalid). -/
def VINT_SIZES : List Nat :=
  [0, 8, 7, 7, 6, 6, 6, 6, 5, 5, 5, 5, 5, 5, 5, 5,
   4, 4, 4, 4, 4, 4, 4, 4, 4, 4, 4, 4, 4, 4, 4, 4,
   3, 3, 3, 3, 3, 3, 3, 3, 3, 3, 3, 3, 3, 3, 3, 3,
   3, 3, 3, 3, 3, 3, 3, 3, 3, 3, 3, 3, 3, 3, 3, 3,
   2, 2, 2, 2, 2, 2, 2, 2, 2, 2, 2, 2, 2, 2, 2, 2,
   2, 2, 2, 2, 2, 2, 2, 2, 2, 2, 2, 2, 2, 2, 2, 2,
   2, 2, 2, 2, 2, 2, 2, 2, 2, 2, 2, 2, 2, 2, 2, 2,
   2, 2, 2, 2, 2, 2, 2, 2, 2, 2, 2, 2, 2, 2, 2, 2,
   1, 1, 1, 1, 1, 1, 1, 1, 1, 1, 1, 1, 1, 1, 1, 1,
   1, 1, 1, 1, 1, 1, 1, 1, 1, 1, 1, 1, 1, 1, 1, 1,
   1, 1, 1, 1, 1, 1, 1, 1, 1, 1, 1, 1, 1, 1, 1, 1,
   1, 1, 1, 1, 1, 1, 1, 1, 1, 1, 1, 1, 1, 1, 1, 1,
   1, 1, 1, 1, 1, 1, 1, 1, 1, 1, 1, 1, 1, 1, 1, 1,
   1, 1, 1, 1, 1, 1, 1, 1, 1, 1, 1, 1, 1, 1, 1, 1,
   1, 1, 1, 1, 1, 1, 1, 1, 1, 1, 1, 1, 1, 1, 1, 1,
   1, 1, 1, 1, 1, 1, 1, 1, 1, 1, 1, 1, 1, 1, 1, 1]

/-- `VINT_SIZES[b]` for a byte `b`. -/
def vintSizeAt (b : Nat) : Nat := VINT_SIZES.getD b 0

/-- `VINT_MASKS` (source line 5): mask for the first byte of a size varint,
indexed by the varint's byte length. -/
def VINT_MASKS : List Nat := [255, 127, 63, 31, 15, 7, 3, 1, 0]

/-- `OPUS_SIG` (source line 6): the 6-byte ASCII codec signature. -/
def OPUS_SIG : List Nat := [65, 95, 79, 80, 85, 83]

/-- `ReadVInt(data, position, length, initialMask)` (source lines 24–28):
mask the first byte, then fold the following bytes in big-endian order with
`value = (value << 8) + byte`; the JS `<<` wraps at 32 bits (`toInt32`). -/
def ReadVInt (data : Bytes) (position : Int) (length : Int) (initialMask : Nat) : Int :=
  (List.range (length - 1).toNat).foldl
    (fun value i => toInt32 (value * 256) + (byteAt data (position + 1 + i) : Int))
    ((byteAt data position &&& initialMask : Nat) : Int)

/-- `data.getInt8(p)`: big-endian signed 8-bit read. -/
def getInt8 (data : Bytes) (p : Int) : Int :=
  let b := byteAt data p
  if b < 128 then (b : Int) else (b : Int) - 256

/-- `data.getInt16(p)`: big-endian signed 16-bit read. -/
def getInt16 (data : Bytes) (p : Int) : Int :=
  let v := byteAt data p * 256 + byteAt data (p + 1)
  if v < 2 ^ 15 then (v : Int) else (v : Int) - 2 ^ 16

/-- `data.getInt32(p)`: big-endian signed 32-bit read. -/
def getInt32 (data : Bytes) (p : Int) : Int :=
  let v := ((byteAt data p * 256 + byteAt data (p + 1)) * 256
      + byteAt data (p + 2)) * 256 + byteAt data (p + 3)
  if v < 2 ^ 31 then (v : Int) else (v : Int) - 2 ^ 32

/-- `ReadInt24(data, position)` (source lines 45–54), byte for byte:
`first = getInt8(position)`; `sign = first >> 7` (arithmetic shift, i.e.
floor division by 128 — this is 0 or -1, never 1);
`value = first & 0b1111111` (in 32-bit two's complement this is the low 7
bits of the byte); then twice `value = (value << 8) | data.getUint8(position)`
— note the source reads byte `position` again both times, not
`position + 1` / `position + 2`; finally `sign === 1 ? -value : value`. -/
def ReadInt24 (data : Bytes) (position : Int) : Int :=
  let first := getInt8 data position
  let sign := Int.fdiv first 128
  let value : Int := (byteAt data position &&& 127 : Nat)
  let value := toInt32 (value * 256) + (byteAt data position : Int)
  let value := toInt32 (value * 256) + (byteAt data position : Int)
  if sign = 1 then -value else value

/-- Job-fatal error conditions of the core (the `throw new Error(...)` sites),
plus `outOfFuel`, an artifact of the explicit fuel of `ParseMaster`, and the
JS builtin range/type errors the code can trigger implicitly. -/
inductive Err where
  | invalidTagLength
  | invalidSizeLength
  | invalidSize
  | cannotDiscardLeading
  | lacingNotSupported
  | failedToParseFrame
  | bufferOverflow
  | failedToCreateDecoder
  | invalidArrayLength
  | nullBuffer
  | rangeError
  | nonOpusData
  | outOfFuel
deriving DecidableEq, Repr

/-- `ParseIntTag(data, position, size)` (source lines 30–43). -/
def ParseIntTag (data : Bytes) (position : Int) (size : Int) : Except Err Int :=
  if size = 1 then .ok (getInt8 data position)
  else if size = 2 then .ok (getInt16 data position)
  else if size = 3 then .ok (ReadInt24 data position)
  else if size = 4 then .ok (getInt32 data position)
  else .error .invalidSize

/-- Models `Math.floor(ns * 0.000048)` (source lines 168 and 174) with the
double-precision product abstracted to the exact rational `ns * 48 / 10^6`
(floor division, also for negative `ns`). -/
def nsToSamples48 (ns : Int) : Int := Int.fdiv (ns * 48) 1000000

/-- The module-level mutable state of one decode job: `_decoder`,
`_audioBuffer` and `_outputOffset` (source lines 8–13).  The native scratch
buffers `_outputBuffer` / `_inputPointer` are process-level allocations of
fixed size, captured by the constants `outputScratchSamples` and
`parseFrameMaxOutputSamples` below.  `α` is the type of one PCM sample
(a 32-bit float in the source; left abstract here). -/
structure DecState (α : Type) where
  decoder : Option Int
  audioBuffer : Option (List α)
  outputOffset : Int
deriving DecidableEq, Repr

/-- Result of running a piece of the job: like `Except`, but an error also
carries the state at the moment of the throw, because the JS module-level
variables keep their values when an exception propagates. -/
inductive Res (ε σ ρ : Type) where
  | ok (v : ρ) (s : σ)
  | err (e : ε) (s : σ)
deriving DecidableEq, Repr

/-- The state carried by a result (on error: the state at the throw). -/
def resState : Res ε σ ρ → σ
  | .ok _ s => s
  | .err _ s => s

/-- The error of a result, if any. -/
def resErr : Res ε σ ρ → Option ε
  | .ok _ _ => none
  | .err e _ => some e

/-- The value of a result, if it succeeded. -/
def resVal : Res ε σ ρ → Option ρ
  | .ok v _ => some v
  | .err _ _ => none

/-- The external native decoder (out of scope per the spec, specified only at
its interface): `createHandle` is what `Module._create_decoder(48000, 1)`
returns; `decode frame maxSamples` is the return value of
`Module._decode_frame` together with the resulting contents of the native
output scratch region (as a total sample function); `zero` is the zero
sample with which `new Float32Array(n)` is filled. -/
structure Oracle (α : Type) where
  createHandle : Int
  decode : List Nat → Nat → Int × (Nat → α)
  zero : α

/-- `bufferSize` in `CreateDecoder` (source line 63). -/
def createDecoderBufferSize : Nat := 2048

/-- The native output scratch region `_outputBuffer` is created as
`new Float32Array(Module.HEAPU8.buffer, _outputPointer, bufferSize)`
(source line 72), i.e. it holds `bufferSize` = 2048 samples. -/
def outputScratchSamples : Nat := createDecoderBufferSize

/-- The `maxOutputSamples` bound passed to every
`Module._decode_frame(_decoder, _inputPointer, length, _outputPointer, 4096)`
call (source line 131). -/
def parseFrameMaxOutputSamples : Nat := 4096

/-- `m * 2^e` as an exact rational. -/
def pow2Scaled (m : Nat) (e : Int) : ℚ :=
  if 0 ≤ e then ((m * 2 ^ e.toNat : Nat) : ℚ) else mkRat m (2 ^ (-e).toNat)

/-- `data.getFloat32(p)` (big-endian), decoded exactly into `ℚ`;
`none` for NaN and the infinities (exponent field 255), for which the
subsequent buffer-length arithmetic cannot produce a valid length. -/
def decodeFloat32 (data : Bytes) (p : Int) : Option ℚ :=
  let bits := ((byteAt data p * 256 + byteAt data (p + 1)) * 256
      + byteAt data (p + 2)) * 256 + byteAt data (p + 3)
  let sign : Nat := bits / 2 ^ 31
  let ex : Nat := bits / 2 ^ 23 % 2 ^ 8
  let mant : Nat := bits % 2 ^ 23
  if ex = 255 then none
  else
    let mag : ℚ :=
      if ex = 0 then (mant : ℚ) * pow2Scaled 1 (-149)
      else pow2Scaled (2 ^ 23 + mant) ((ex : Int) - 150)
    some (if sign = 1 then -mag else mag)

/-- `data.getFloat64(p)` (big-endian), decoded exactly into `ℚ`;
`none` for NaN and the infinities (exponent field 2047). -/
def decodeFloat64 (data : Bytes) (p : Int) : Option ℚ :=
  let hi := ((byteAt data p * 256 + byteAt data (p + 1)) * 256
      + byteAt data (p + 2)) * 256 + byteAt data (p + 3)
  let lo := ((byteAt data (p + 4) * 256 + byteAt data (p + 5)) * 256
      + byteAt data (p + 6)) * 256 + byteAt data (p + 7)
  let bits := hi * 2 ^ 32 + lo
  let sign : Nat := bits / 2 ^ 63
  let ex : Nat := bits / 2 ^ 52 % 2 ^ 11
  let mant : Nat := bits % 2 ^ 52
  if ex = 2047 then none
  else
    let mag : ℚ :=
      if ex = 0 then (mant : ℚ) * pow2Scaled 1 (-1074)
      else pow2Scaled (2 ^ 52 + mant) ((ex : Int) - 1075)
    some (if sign = 1 then -mag else mag)

/-- `CalculateAudioBufferSize(rate, channels, duration)` (source lines 56–58):
`rate / 1e3 * channels * duration`. -/
def CalculateAudioBufferSize (rate channels duration : ℚ) : ℚ :=
  rate / 1000 * channels * duration

/-- `CreateDecoder(duration)` (source lines 60–79): allocates
`_audioBuffer = new Float32Array(CalculateAudioBufferSize(48000, 1, duration + 120))`
— a JS typed-array length must be a nonnegative integer, else a RangeError
is thrown (also when `duration` is NaN/Infinity, modeled by `none`) — then
`_decoder = Module._create_decoder(48000, 1)` and throws if the handle is
negative (note the handle is stored before the check).  The process-level
scratch allocations (`bufferSize = 2048`) are captured by
`createDecoderBufferSize` / `outputScratchSamples`. -/
def CreateDecoder (O : Oracle α) (duration : Option ℚ) (st : DecState α) :
    Res Err (DecState α) Unit :=
  match duration with
  | none => .err .invalidArrayLength st
  | some dur =>
    let lengthQ := CalculateAudioBufferSize 48000 1 (dur + 120)
    if lengthQ.den = 1 ∧ 0 ≤ lengthQ.num then
      let st1 := { st with audioBuffer := some (List.replicate lengthQ.num.toNat O.zero) }
      let d := O.createHandle
      let st2 := { st1 with decoder := some d }
      if d < 0 then .err .failedToCreateDecoder st2 else .ok () st2
    else .err .invalidArrayLength st

/-- `DestroyDecoder()` (source lines 81–85): releases the handle and resets
the write cursor.  `_audioBuffer` is not touched here (the job entry point
clears it separately on the success path). -/
def DestroyDecoder (st : DecState α) : DecState α :=
  { st with decoder := none, outputOffset := 0 }

/-- `TypedArray.set(vals, pos)`: overwrite `vals.length` entries of `buf`
starting at `pos` (the source only reaches this after its bounds check). -/
def setAt (buf : List α) (pos : Nat) (vals : List α) : List α :=
  buf.take pos ++ vals ++ buf.drop (pos + vals.length)

/-- `WriteOutput(ret)` (source lines 106–126).  `scratch` is the contents of
the native output scratch region (`Module.HEAPU8.buffer` at
`_outputPointer`, viewed as samples).  If `ret + _outputOffset > 0`: when
the cursor is negative, the first `trim = -_outputOffset` decoded samples
are dropped and the rest land at index 0, otherwise all `ret` samples land
at the cursor; a write whose end would pass the buffer length throws
`Buffer overflow` before anything is stored (on a null `_audioBuffer` the
length access itself throws, modeled by `nullBuffer`).  In every non-throwing
path the cursor then advances by `ret`. -/
def WriteOutput (scratch : Nat → α) (ret : Int) (st : DecState α) :
    Res Err (DecState α) Unit :=
  if ret + st.outputOffset > 0 then
    match st.audioBuffer with
    | none => .err .nullBuffer st
    | some buf =>
      let tbwp : List α × Nat :=
        if st.outputOffset < 0 then
          (((List.range (ret.toNat - (-st.outputOffset).toNat)).map
              (fun i => scratch ((-st.outputOffset).toNat + i))), 0)
        else
          ((List.range ret.toNat).map scratch, st.outputOffset.toNat)
      if tbwp.2 + tbwp.1.length > buf.length then .err .bufferOverflow st
      else .ok () { st with audioBuffer := some (setAt buf tbwp.2 tbwp.1),
                            outputOffset := st.outputOffset + ret }
  else .ok () { st with outputOffset := st.outputOffset + ret }

/-- `ParseFrame(data)` (source lines 128–137): feed the raw frame to the
native decoder with the fixed bound `4096`; a positive return is the decoded
sample count handed to `WriteOutput`, otherwise the job fails. -/
def ParseFrame (O : Oracle α) (frame : List Nat) (st : DecState α) :
    Res Err (DecState α) Unit :=
  let r := O.decode frame parseFrameMaxOutputSamples
  if r.1 > 0 then WriteOutput r.2 r.1 st else .err .failedToParseFrame st

/-- `ParseBlock(data, position, size)` (source lines 139–151): skip the
track-number varint (`tagLength` from `VINT_SIZES`) and the 2-byte
timecode, read the flags byte, reject any nonzero lacing bits
(`flags & 6`), then forward the remaining `size - tagLength - 3` bytes as
the raw frame (a negative remaining length would make the
`new Uint8Array(...)` throw a RangeError). -/
def ParseBlock (O : Oracle α) (data : Bytes) (position size : Int) (st : DecState α) :
    Res Err (DecState α) Unit :=
  let firstByte := byteAt data position
  let tagLength := vintSizeAt firstByte
  let p1 := position + tagLength
  let p2 := p1 + 2
  let flags := byteAt data p2
  let p3 := p2 + 1
  let size1 := size - (tagLength + 3)
  let lacing := flags &&& 6
  if lacing ≠ 0 then .err .lacingNotSupported st
  else if size1 < 0 then .err .rangeError st
  else ParseFrame O ((List.range size1.toNat).map (fun i => byteAt data (p3 + i))) st

/-- `ParseDuration(data, position, size)` (source lines 153–159): the field
must be a 4-byte (`getFloat32`) or 8-byte (`getFloat64`) float, else the job
fails; the duration in milliseconds is handed to `CreateDecoder`. -/
def ParseDuration (O : Oracle α) (data : Bytes) (position size : Int) (st : DecState α) :
    Res Err (DecState α) Unit :=
  if size = 4 then CreateDecoder O (decodeFloat32 data position) st
  else if size = 8 then CreateDecoder O (decodeFloat64 data position) st
  else .err .invalidSize st

/-- `ParseDiscard(data, position, size)` (source lines 161–170): read a
signed fixed-width integer (nanoseconds), reject negative values, and
subtract `Math.floor(ns * 0.000048)` samples from the write cursor. -/
def ParseDiscard (data : Bytes) (position size : Int) (st : DecState α) :
    Res Err (DecState α) Unit :=
  match ParseIntTag data position size with
  | .error e => .err e st
  | .ok discardDuration =>
    if discardDuration < 0 then .err .cannotDiscardLeading st
    else .ok () { st with outputOffset := st.outputOffset - nsToSamples48 discardDuration }

/-- `ParseDelay(data, position, size)` (source lines 172–175): read the
field with the varint reader (mask `0xFF`) as nanoseconds and set the write
cursor to the negation of `Math.floor(ns * 0.000048)`. -/
def ParseDelay (data : Bytes) (position size : Int) (st : DecState α) :
    Res Err (DecState α) Unit :=
  .ok () { st with outputOffset := -(nsToSamples48 (ReadVInt data position size 255)) }

/-- `TestOpus(data, position)` (source lines 177–181): the 6 bytes at
`position` must equal `OPUS_SIG`. -/
def TestOpus (data : Bytes) (position : Int) (st : DecState α) :
    Res Err (DecState α) Unit :=
  if (List.range 6).all (fun i => byteAt data (position + i) = OPUS_SIG.getD i 0)
  then .ok () st else .err .nonOpusData st

/-- The element-header reads at the top of the `ParseMaster` loop body
(source lines 187–197): the ID varint's length from `VINT_SIZES` (rejecting
0 and `> 4`), the ID itself with mask `0xFF`, then the size varint's length
from `VINT_SIZES` (rejecting only 0 — lengths 5–8 are looked up in
`VINT_MASKS` and decoded) and the size value.  Returns
`(tagLength + sizeLength, id, size)`. -/
def readHeader (data : Bytes) (position : Int) : Except Err (Nat × Int × Int) :=
  let firstByte := byteAt data position
  let tagLength := vintSizeAt firstByte
  if tagLength > 4 ∨ tagLength = 0 then .error .invalidTagLength
  else
    let id := ReadVInt data position tagLength 255
    let p2 := position + tagLength
    let sizeLength := vintSizeAt (byteAt data p2)
    let mask := VINT_MASKS.getD sizeLength 0
    if sizeLength = 0 then .error .invalidSizeLength
    else
      let size := ReadVInt data p2 sizeLength mask
      .ok (tagLength + sizeLength, id, size)

/-- `ParseMaster(data, position, length)` (source lines 183–226) with
explicit fuel: while `position < end`, read the element header, dispatch on
the ID (master elements recurse over the payload; Duration, CodecDelay,
DiscardPadding, CodecID, Block and SimpleBlock go to their handlers; any
other ID is ignored), then advance `position += size` regardless of the
branch taken. -/
def ParseMaster (O : Oracle α) :
    Nat → Bytes → Int → Int → DecState α → Res Err (DecState α) Unit
  | 0, _, _, _, st => .err .outOfFuel st
  | fuel + 1, data, position, endP, st =>
    if position < endP then
      match readHeader data position with
      | .error e => .err e st
      | .ok (hdrLen, id, size) =>
        let payload : Int := position + hdrLen
        let next : Int := payload + size
        let step : Res Err (DecState α) Unit :=
          if id = 408125543 ∨ id = 357149030 ∨ id = 524531317 ∨
             id = 374648427 ∨ id = 174 ∨ id = 160 then
            ParseMaster O fuel data payload next st
          else if id = 17545 then ParseDuration O data payload size st
          else if id = 22186 then ParseDelay data payload size st
          else if id = 30114 then ParseDiscard data payload size st
          else if id = 134 then TestOpus data payload st
          else if id = 161 ∨ id = 163 then ParseBlock O data payload size st
          else .ok () st
        match step with
        | .err e s => .err e s
        | .ok _ s => ParseMaster O fuel data next endP s
    else .ok () st

/-- The element spans visited by one `ParseMaster` invocation (one loop, no
recursion into children): for each iteration, the start position, the header
length (ID varint + size varint) and the decoded size.  The cursor moves by
exactly the same recurrence as in `ParseMaster`. -/
def elementSpans :
    Nat → Bytes → Int → Int → Except Err (List (Int × Nat × Int))
  | 0, _, _, _ => .error .outOfFuel
  | fuel + 1, data, position, endP =>
    if position < endP then
      match readHeader data position with
      | .error e => .error e
      | .ok (hdrLen, _, size) =>
        match elementSpans fuel data (position + hdrLen + size) endP with
        | .error e => .error e
        | .ok rest => .ok ((position, hdrLen, size) :: rest)
    else .ok []

/-- The spans `sp` tile the walked range: each span starts exactly where the
previous one ended (start position + header length + size), the first starts
at `p`, every span starts inside the range, and the list ends only once the
cursor has reached `e`. -/
def tiles : Int → Int → List (Int × Nat × Int) → Prop
  | p, e, [] => e ≤ p
  | p, e, el :: rest => el.1 = p ∧ p < e ∧ tiles (p + el.2.1 + el.2.2) e rest

/-- Decidability of `tiles`, so witnesses can evaluate it. -/
instance instDecidableTiles : ∀ (p e : Int) (sp : List (Int × Nat × Int)),
    Decidable (tiles p e sp)
  | _, _, [] => by unfold tiles; infer_instance
  | p, e, el :: rest => by
      unfold tiles
      have := instDecidableTiles (p + el.2.1 + el.2.2) e rest
      infer_instance

/-- Byte `b` belongs to element `el = (start, headerLen, size)`: it is one
of the element's ID varint or size varint bytes
(`start ≤ b < start + headerLen`) or one of its `size` payload bytes
(`start + headerLen ≤ b < start + headerLen + size`). -/
def inElem (el : Int × Nat × Int) (b : Int) : Prop :=
  (el.1 ≤ b ∧ b < el.1 + el.2.1) ∨
  (el.1 + el.2.1 ≤ b ∧ b < el.1 + el.2.1 + el.2.2)

instance (el : Int × Nat × Int) (b : Int) : Decidable (inElem el b) := by
  unfold inElem; infer_instance

/-- `_audioBuffer.buffer.slice(0, endOff * 4)` (source line 98) at sample
granularity (the byte end is a multiple of 4): a negative end is taken
relative to the buffer's byte length and the result is clamped to
`[0, byteLength]`. -/
def sliceSamples (buf : List α) (endOff : Int) : List α :=
  if endOff < 0 then buf.take (max ((buf.length : Int) + endOff) 0).toNat
  else buf.take (min endOff (buf.length : Int)).toNat

/-- The `OpusDecode` job handler (source lines 89–104): walk the whole
container, then read the final cursor, call `DestroyDecoder`, slice the
output buffer to `[0, end * 4)` bytes and release it.  A failure in
`ParseMaster` propagates out of the job without running any of the cleanup
(there is no try/finally), so the error keeps the decoder handle and buffer
of the state at the throw. -/
def OpusDecode (O : Oracle α) (fuel : Nat) (data : Bytes) (byteLength : Int)
    (st : DecState α) : Res Err (DecState α) (List α) :=
  match ParseMaster O fuel data 0 byteLength st with
  | .err e s => .err e s
  | .ok _ s =>
    let endOff := s.outputOffset
    let s1 := DestroyDecoder s
    match s1.audioBuffer with
    | none => .err .nullBuffer s1
    | some buf => .ok (sliceSamples buf endOff) { s1 with audioBuffer := none }

/-- A concrete sample oracle for witnesses: handle 1, every frame decodes to
0 samples of value 0. -/
def O0 : Oracle Int :=
  { createHandle := 1, decode := fun _ _ => (0, fun _ => 0), zero := 0 }

/-- The initial job state: no decoder, no buffer, cursor 0. -/
def st0 : DecState Int := { decoder := none, audioBuffer := none, outputOffset := 0 }

/-- A 3-byte DiscardPadding payload `ff ff ff`, i.e. -1 ns in 24-bit two's
complement. -/
def c2data : Bytes := bytesOf [255, 255, 255]

/-- A 6-byte range: one unknown element (ID `0x80`) whose 5-byte size field
`0f ff ff ff fc` decodes to -4 through the 32-bit wrap of `<<`, followed by
whatever the cursor lands on when it moves back to offset 2. -/
def c5data : Bytes := bytesOf [128, 15, 255, 255, 255, 252]

/-- A 6-byte range: one unknown element (ID `0x80`) with a 5-byte size field
`08 00 00 00 00` (value 0): a size-length marker above 4. -/
def c6data : Bytes := bytesOf [128, 8, 0, 0, 0, 0]

/-- A container with a Duration element (`44 89`, size 4, value 0.0f) and a
SimpleBlock (`a3`, size 4) whose flags byte `06` has nonzero lacing bits:
the job fails after the decoder was created. -/
def c8data : Bytes := bytesOf [68, 137, 132, 0, 0, 0, 0, 163, 132, 129, 0, 0, 6]

/-- A container with a Duration element (`44 89`, size 4, value 0.0f) and a
CodecDelay element (`56 aa`, size 4, value 120000000 ns = 5760 samples):
the walk completes with cursor -5760 and a 5760-sample buffer. -/
def c10data : Bytes := bytesOf [68, 137, 132, 0, 0, 0, 0, 86, 170, 132, 7, 39, 14, 0]

/-- The state after walking `c10data`: decoder created, 5760-sample buffer,
cursor -5760. -/
def c10FinalState : DecState Int :=
  { decoder := some 1, audioBuffer := some (List.replicate 5760 0), outputOffset := -5760 }

/-- The state at the failure of the `c8data` job: decoder created (handle 1),
5760-sample buffer allocated, cursor 0 — nothing released. -/
def c8FailState : DecState Int :=
  { decoder := some 1, audioBuffer := some (List.replicate 5760 0), outputOffset := 0 }

deriving instance DecidableEq for Except

theorem setAt_zero_nil (buf : List α) : setAt buf 0 [] = buf := by
  simp [setAt]

theorem setAt_length (buf : List α) (pos : Nat) (vals : List α)
    (h : pos + vals.length ≤ buf.length) : (setAt buf pos vals).length = buf.length := by
  simp [setAt]
  omega

theorem exists_spans_of_parse (O : Oracle α) :
    ∀ (fuel : Nat) (data : Bytes) (position endP : Int) (st st' : DecState α),
    ParseMaster O fuel data position endP st = .ok () st' →
    ∃ sp, elementSpans fuel data position endP = .ok sp := by
  intro fuel
  induction fuel with
  | zero =>
    intro data position endP st st' h
    simp [ParseMaster] at h
  | succ n ih =>
    intro data position endP st st' h
    by_cases hlt : position < endP
    · rw [ParseMaster, if_pos hlt] at h
      rw [elementSpans, if_pos hlt]
      cases hrh : readHeader data position with
      | error e => rw [hrh] at h; simp at h
      | ok v =>
        obtain ⟨hdrLen, id, size⟩ := v
        rw [hrh] at h
        simp only at h
        split at h
        · simp at h
        · next s hstep =>
          obtain ⟨rest, hrest⟩ := ih data _ endP s st' h
          exact ⟨(position, hdrLen, size) :: rest, by simp [hrest]⟩
    · rw [ParseMaster, if_neg hlt] at h
      exact ⟨[], by rw [elementSpans, if_neg hlt]⟩

theorem inElem_iff_of_nonneg (el : Int × Nat × Int) (b : Int) (h : 0 ≤ el.2.2) :
    inElem el b ↔ el.1 ≤ b ∧ b < el.1 + el.2.1 + el.2.2 := by
  unfold inElem
  omega

theorem tiles_of_spans :
    ∀ (fuel : Nat) (data : Bytes) (p e : Int) (sp : List (Int × Nat × Int)),
    elementSpans fuel data p e = .ok sp → tiles p e sp := by
  intro fuel
  induction fuel with
  | zero => intro data p e sp h; simp [elementSpans] at h
  | succ n ih =>
    intro data p e sp h
    by_cases hlt : p < e
    · rw [elementSpans, if_pos hlt] at h
      cases hrh : readHeader data p with
      | error e' => rw [hrh] at h; simp at h
      | ok v =>
        obtain ⟨hdrLen, id, size⟩ := v
        rw [hrh] at h
        simp only at h
        cases hrest : elementSpans n data (p + hdrLen + size) e with
        | error e' => rw [hrest] at h; simp at h
        | ok rest =>
          rw [hrest] at h
          simp only [Except.ok.injEq] at h
          subst h
          exact ⟨rfl, hlt, ih data _ e rest hrest⟩
    · rw [elementSpans, if_neg hlt] at h
      simp only [Except.ok.injEq] at h
      subst h
      exact le_of_not_lt hlt

theorem tiles_le_start :
    ∀ (sp : List (Int × Nat × Int)) (p e : Int),
    tiles p e sp → (∀ el ∈ sp, 0 ≤ el.2.2) → ∀ el ∈ sp, p ≤ el.1 := by
  intro sp
  induction sp with
  | nil => intro p e _ _ el hel; cases hel
  | cons hd tl ih =>
    intro p e ht hnn el hel
    obtain ⟨h1, h2, h3⟩ := ht
    rcases List.mem_cons.mp hel with rfl | hel'
    · exact le_of_eq h1.symm
    · have hrec := ih (p + hd.2.1 + hd.2.2) e h3
        (fun x hx => hnn x (List.mem_cons_of_mem _ hx)) el hel'
      have h0 : (0 : Int) ≤ hd.2.2 := hnn hd (List.mem_cons_self _ _)
      omega

theorem tiles_coverage :
    ∀ (sp : List (Int × Nat × Int)) (p e b : Int),
    tiles p e sp → (∀ el ∈ sp, 0 ≤ el.2.2) → p ≤ b → b < e →
    (∃ el ∈ sp, inElem el b) ∧
    ∀ el₁ ∈ sp, ∀ el₂ ∈ sp, inElem el₁ b → inElem el₂ b → el₁ = el₂ := by
  intro sp
  induction sp with
  | nil =>
    intro p e b ht _ hpb hbe
    exact absurd (lt_of_le_of_lt hpb hbe) (not_lt.mpr ht)
  | cons hd tl ih =>
    intro p e b ht hnn hpb hbe
    obtain ⟨h1, h2, h3⟩ := ht
    have h0 : (0 : Int) ≤ hd.2.2 := hnn hd (List.mem_cons_self _ _)
    have hnn' : ∀ el ∈ tl, (0 : Int) ≤ el.2.2 :=
      fun x hx => hnn x (List.mem_cons_of_mem _ hx)
    have hstart := tiles_le_start tl (p + hd.2.1 + hd.2.2) e h3 hnn'
    by_cases hin : b < p + hd.2.1 + hd.2.2
    · refine ⟨⟨hd, List.mem_cons_self _ _,
        (inElem_iff_of_nonneg hd b h0).mpr ⟨h1 ▸ hpb, by omega⟩⟩, ?_⟩
      intro el₁ he₁ el₂ he₂ hi₁ hi₂
      rcases List.mem_cons.mp he₁ with rfl | he₁' <;>
        rcases List.mem_cons.mp he₂ with rfl | he₂'
      · rfl
      · exfalso
        have := ((inElem_iff_of_nonneg el₂ b (hnn' el₂ he₂')).mp hi₂).1
        have := hstart el₂ he₂'
        omega
      · exfalso
        have := ((inElem_iff_of_nonneg el₁ b (hnn' el₁ he₁')).mp hi₁).1
        have := hstart el₁ he₁'
        omega
      · exfalso
        have := ((inElem_iff_of_nonneg el₁ b (hnn' el₁ he₁')).mp hi₁).1
        have := hstart el₁ he₁'
        omega
    · have hge : p + hd.2.1 + hd.2.2 ≤ b := not_lt.1 hin
      obtain ⟨⟨el, hel, hinel⟩, huniq⟩ := ih (p + hd.2.1 + hd.2.2) e b h3 hnn' hge hbe
      refine ⟨⟨el, List.mem_cons_of_mem _ hel, hinel⟩, ?_⟩
      intro el₁ he₁ el₂ he₂ hi₁ hi₂
      rcases List.mem_cons.mp he₁ with rfl | he₁' <;>
        rcases List.mem_cons.mp he₂ with rfl | he₂'
      · rfl
      · exfalso
        have := ((inElem_iff_of_nonneg el₁ b h0).mp hi₁).2
        omega
      · exfalso
        have := ((inElem_iff_of_nonneg el₂ b h0).mp hi₂).2
        omega
      · exact huniq el₁ he₁' el₂ he₂' hi₁ hi₂


theorem ParseMaster_stop (O : Oracle α) (fuel : Nat) (data : Bytes)
    (position endP : Int) (st : DecState α) (h : ¬ position < endP) :
    ParseMaster O (fuel + 1) data position endP st = .ok () st := by
  rw [ParseMaster, if_neg h]

theorem ParseMaster_step_duration (O : Oracle α) (fuel : Nat) (data : Bytes)
    (position endP : Int) (st : DecState α) (hdrLen : Nat) (size : Int)
    (hlt : position < endP)
    (hrh : readHeader data position = .ok (hdrLen, 17545, size)) :
    ParseMaster O (fuel + 1) data position endP st =
      match ParseDuration O data (position + hdrLen) size st with
      | .err e s => .err e s
      | .ok _ s => ParseMaster O fuel data (position + hdrLen + size) endP s := by
  rw [ParseMaster, if_pos hlt, hrh]
  norm_num

theorem ParseMaster_step_delay (O : Oracle α) (fuel : Nat) (data : Bytes)
    (position endP : Int) (st : DecState α) (hdrLen : Nat) (size : Int)
    (hlt : position < endP)
    (hrh : readHeader data position = .ok (hdrLen, 22186, size)) :
    ParseMaster O (fuel + 1) data position endP st =
      match ParseDelay data (position + hdrLen) size st with
      | .err e s => .err e s
      | .ok _ s => ParseMaster O fuel data (position + hdrLen + size) endP s := by
  rw [ParseMaster, if_pos hlt, hrh]
  norm_num

theorem ParseMaster_step_block (O : Oracle α) (fuel : Nat) (data : Bytes)
    (position endP : Int) (st : DecState α) (hdrLen : Nat) (size : Int)
    (hlt : position < endP)
    (hrh : readHeader data position = .ok (hdrLen, 163, size)) :
    ParseMaster O (fuel + 1) data position endP st =
      match ParseBlock O data (position + hdrLen) size st with
      | .err e s => .err e s
      | .ok _ s => ParseMaster O fuel data (position + hdrLen + size) endP s := by
  rw [ParseMaster, if_pos hlt, hrh]
  norm_num

theorem ParseDuration_zero_eval (data : Bytes) (p : Int) (st : DecState Int)
    (b3 : byteAt data p = 0) (b4 : byteAt data (p + 1) = 0)
    (b5 : byteAt data (p + 2) = 0) (b6 : byteAt data (p + 3) = 0) :
    ParseDuration O0 data p 4 st =
      .ok () { st with decoder := some 1, audioBuffer := some (List.replicate 5760 0) } := by
  have h1 : decodeFloat32 data p = some 0 := by
    unfold decodeFloat32
    rw [b3, b4, b5, b6]
    norm_num
  have h2 : CalculateAudioBufferSize 48000 1 (0 + 120) = (5760 : ℚ) := by
    unfold CalculateAudioBufferSize
    norm_num
  have h3 : Int.toNat (5760 : Int) = 5760 := by decide
  unfold ParseDuration
  rw [if_pos rfl, h1]
  unfold CreateDecoder
  simp only [h2]
  norm_num [O0, h3]

theorem c8_walk_eval :
    ParseMaster O0 20 c8data 0 13 st0 = .err .lacingNotSupported c8FailState := by
  rw [show (20 : Nat) = 19 + 1 from rfl,
    ParseMaster_step_duration O0 19 c8data 0 13 st0 3 4 (by decide) (by decide)]
  norm_num
  rw [ParseDuration_zero_eval c8data 3 st0 (by decide) (by decide) (by decide) (by decide)]
  show ParseMaster O0 19 c8data 7 13 c8FailState = _
  rw [show (19 : Nat) = 18 + 1 from rfl,
    ParseMaster_step_block O0 18 c8data 7 13 c8FailState 2 4 (by decide) (by decide)]
  norm_num
  rw [show ParseBlock O0 c8data 9 4 c8FailState = .err .lacingNotSupported c8FailState from rfl]

theorem c10_walk_eval :
    ParseMaster O0 20 c10data 0 14 st0 = .ok () c10FinalState := by
  rw [show (20 : Nat) = 19 + 1 from rfl,
    ParseMaster_step_duration O0 19 c10data 0 14 st0 3 4 (by decide) (by decide)]
  norm_num
  rw [ParseDuration_zero_eval c10data 3 st0 (by decide) (by decide) (by decide) (by decide)]
  show ParseMaster O0 19 c10data 7 14 c8FailState = _
  rw [show (19 : Nat) = 18 + 1 from rfl,
    ParseMaster_step_delay O0 18 c10data 7 14 c8FailState 3 4 (by decide) (by decide)]
  norm_num
  rw [show ParseDelay c10data 10 4 c8FailState = .ok () c10FinalState from rfl]
  show ParseMaster O0 18 c10data 14 14 c10FinalState = _
  rw [show (18 : Nat) = 17 + 1 from rfl,
    ParseMaster_stop O0 17 c10data 14 14 c10FinalState (by decide)]

/-- Claim C9 (code bug): the native output scratch region holds
`bufferSize = 2048` samples (source lines 63, 71–72), yet every
`_decode_frame` call advertises `maxOutputSamples = 4096` (source line 131),
so the scratch region is smaller than the bound the decoder is allowed to
fill — the claimed property (a 4096-sample scratch covering the bound)
fails in the code. -/
theorem scratch_smaller_than_decode_bound :
    outputScratchSamples = 2048 ∧ parseFrameMaxOutputSamples = 4096 ∧
    outputScratchSamples < parseFrameMaxOutputSamples := by decide

/-- Claim C2 (code bug): on the 3-byte DiscardPadding payload `ff ff ff`
(the two's-complement encoding of -1 ns) the code's `ReadInt24` yields
+8388607 — its `sign === 1` test can never fire (JS `getInt8 >> 7` is 0 or
-1) and it re-reads the first byte three times — so instead of failing the
job for a negative padding, `ParseDiscard` succeeds and subtracts
`floor(8388607 * 0.000048) = 402` samples from the cursor. -/
theorem discard_padding_int24_evaluation :
    ReadInt24 c2data 0 = 8388607 ∧ (0 : Int) ≤ ReadInt24 c2data 0 ∧
    ParseDiscard c2data 0 3 st0 = .ok () { st0 with outputOffset := -402 } := by decide

/-- Claim C8 (code bug): on `c8data` the job fails (lacing) after the
decoder was created, and the failure state still holds the decoder handle
and the output buffer: `OpusDecode` has no try/finally, so nothing is
released on the failure path. -/
theorem failure_path_leaks_decoder :
    resErr (OpusDecode O0 20 c8data 13 st0) = some .lacingNotSupported ∧
    (resState (OpusDecode O0 20 c8data 13 st0)).decoder = some 1 ∧
    (resState (OpusDecode O0 20 c8data 13 st0)).audioBuffer.isSome = true := by
  have hjob : OpusDecode O0 20 c8data 13 st0 = .err .lacingNotSupported c8FailState := by
    unfold OpusDecode
    rw [c8_walk_eval]
  refine ⟨?_, ?_, ?_⟩ <;> rw [hjob] <;> rfl

/-- Claim C6 counterexample: the size field of the element in `c6data` has
leading byte `0x08`, whose `VINT_SIZES` entry is 5 (> 4), yet the walk
decodes it (mask `VINT_MASKS[5]`) and completes without any error — the
claim says a size-field length marker above 4 bytes must fail the job. -/
theorem size_marker_five_bytes_accepted :
    vintSizeAt (byteAt c6data 1) = 5 ∧
    readHeader c6data 0 = .ok (6, 128, 0) ∧
    ParseMaster O0 10 c6data 0 6 st0 = .ok () st0 := by decide

/-- Claim C5 counterexample: the walk over `c5data` succeeds, but the first
iteration's element has a 6-byte header and decoded size -4 (the 5-byte
size field wraps negative in 32-bit arithmetic), so the cursor moves back
to offset 2 and byte 3 belongs to two distinct elements — the first
element's size-varint bytes overlap the second element. -/
theorem walker_overlap_counterexample :
    ParseMaster O0 10 c5data 0 6 st0 = .ok () st0 ∧
    elementSpans 10 c5data 0 6 = .ok [(0, 6, -4), (2, 2, 127)] ∧
    inElem (0, 6, -4) 3 ∧ inElem (2, 2, 127) 3 ∧
    ((0, 6, -4) : Int × Nat × Int) ≠ (2, 2, 127) := by decide

/-- Claim C6 (amended): an ID-field length marker mapping to 0 or to more
than 4 bytes fails the job with the malformed-varint error, and a size-field
length marker mapping to 0 fails likewise; but on the size field only the
marker 0 is rejected — markers mapping to 5–8 bytes are decoded with the
corresponding `VINT_MASKS` entry (see the counterexample).  Any
`readHeader` error is propagated by the walker as a job failure. -/
theorem header_varint_rejection (data : Bytes) (p : Int) :
    (vintSizeAt (byteAt data p) = 0 ∨ 4 < vintSizeAt (byteAt data p) →
      readHeader data p = .error .invalidTagLength) ∧
    (vintSizeAt (byteAt data p) ≠ 0 → ¬ 4 < vintSizeAt (byteAt data p) →
      vintSizeAt (byteAt data (p + (vintSizeAt (byteAt data p) : Int))) = 0 →
      readHeader data p = .error .invalidSizeLength) ∧
    (∀ (α : Type) (O : Oracle α) (fuel : Nat) (endP : Int) (st : DecState α) (e : Err),
      p < endP → readHeader data p = .error e →
      ParseMaster O (fuel + 1) data p endP st = .err e st) := by
  refine ⟨?_, ?_, ?_⟩
  · intro h
    have hc : vintSizeAt (byteAt data p) > 4 ∨ vintSizeAt (byteAt data p) = 0 := h.symm.imp id id
    rw [readHeader, if_pos hc]
  · intro h0 h4 hsz
    have hc : ¬ (vintSizeAt (byteAt data p) > 4 ∨ vintSizeAt (byteAt data p) = 0) := by
      intro hcon
      exact hcon.elim h4 h0
    rw [readHeader, if_neg hc]
    simp [hsz]
  · intro α O fuel endP st e hlt hrh
    rw [ParseMaster, if_pos hlt, hrh]

/-- Claim C6 witness: a leading ID byte 0 maps to length marker 0 and fails;
an ID `0x80` followed by a size byte 0 fails on the size-field marker; each
failure propagates as the walker's job failure. -/
theorem header_varint_rejection_witness :
    readHeader (bytesOf [0]) 0 = .error .invalidTagLength ∧
    readHeader (bytesOf [128, 0]) 0 = .error .invalidSizeLength ∧
    ParseMaster O0 1 (bytesOf [0]) 0 1 st0 = .err .invalidTagLength st0 :=
  ⟨(header_varint_rejection (bytesOf [0]) 0).1 (by decide),
   (header_varint_rejection (bytesOf [128, 0]) 0).2.1 (by decide) (by decide) (by decide),
   (header_varint_rejection (bytesOf [0]) 0).2.2 Int O0 0 1 st0 .invalidTagLength
     (by decide) ((header_varint_rejection (bytesOf [0]) 0).1 (by decide))⟩

/-- Claim C7: a Block/SimpleBlock whose flags byte (the byte after the
track-number varint and the 2-byte timecode) has nonzero lacing bits
(`flags & 6`) fails the job with the unsupported-lacing error before any
frame reaches the decoder, leaving the state (and hence the output buffer)
untouched. -/
theorem block_lacing_fails_job (O : Oracle α) (data : Bytes) (p sz : Int)
    (st : DecState α)
    (h : byteAt data (p + (vintSizeAt (byteAt data p) : Int) + 2) &&& 6 ≠ 0) :
    ParseBlock O data p sz st = .err .lacingNotSupported st := by
  rw [ParseBlock]
  simp only [if_pos h]

/-- Claim C7 witness: a SimpleBlock payload with track varint `0x81`,
timecode `00 00` and flags `0x06` (lacing bits set) is rejected with the
state unchanged. -/
theorem block_lacing_fails_job_witness :
    ParseBlock O0 (bytesOf [129, 0, 0, 6]) 0 4 st0 = .err .lacingNotSupported st0 :=
  block_lacing_fails_job O0 (bytesOf [129, 0, 0, 6]) 0 4 st0 (by decide)

/-- Claim C5 (amended): for every non-failing walker invocation over
`[position, endP)` the per-iteration element spans exist and follow the
cursor recurrence `next = start + idLen + sizeLen + size` exactly
(`tiles`), and — provided every decoded size is nonnegative, which always
holds for size fields of at most 4 bytes but can fail for 5–8-byte size
fields whose value wraps negative under 32-bit shifting (see the
counterexample) — every byte of the range lies in exactly one element (its
ID varint bytes, size varint bytes, or payload bytes): no overlap, no gap. -/
theorem walker_tiles_range (O : Oracle α) (fuel : Nat) (data : Bytes)
    (position endP : Int) (st st' : DecState α)
    (h : ParseMaster O fuel data position endP st = .ok () st') :
    ∃ sp, elementSpans fuel data position endP = .ok sp ∧ tiles position endP sp ∧
      ((∀ el ∈ sp, 0 ≤ el.2.2) → ∀ b : Int, position ≤ b → b < endP →
        (∃ el ∈ sp, inElem el b) ∧
        ∀ el₁ ∈ sp, ∀ el₂ ∈ sp, inElem el₁ b → inElem el₂ b → el₁ = el₂) := by
  obtain ⟨sp, hsp⟩ := exists_spans_of_parse O fuel data position endP st st' h
  have ht := tiles_of_spans fuel data position endP sp hsp
  exact ⟨sp, hsp, ht, fun hnn b hpb hbe => tiles_coverage sp position endP b ht hnn hpb hbe⟩

/-- Claim C5 witness: a singleton range with one well-formed element
(ID `0x80`, 1-byte size `0x81` = 1, one payload byte) is tiled exactly. -/
theorem walker_tiles_range_witness :
    ∃ sp, elementSpans 5 (bytesOf [128, 129, 0]) 0 3 = .ok sp ∧ tiles 0 3 sp ∧
      ((∀ el ∈ sp, 0 ≤ el.2.2) → ∀ b : Int, 0 ≤ b → b < 3 →
        (∃ el ∈ sp, inElem el b) ∧
        ∀ el₁ ∈ sp, ∀ el₂ ∈ sp, inElem el₁ b → inElem el₂ b → el₁ = el₂) :=
  walker_tiles_range O0 5 (bytesOf [128, 129, 0]) 0 3 st0 st0 (by decide)

/-- Claim C1: `ParseDelay` sets the write cursor to the negation of
`floor(D * 0.000048)` where `D` is the varint-read (mask `0xFF`) value of
the CodecDelay field; and a subsequently submitted frame of `N` decoded
samples, written while the cursor is negative with magnitude `C`, stores
exactly `max(0, N - C)` samples at index 0 of the output buffer — the first
`C` decoded samples of the frame are dropped — after which the cursor has
advanced by `N`. -/
theorem codecDelay_write_cursor (data : Bytes) (p sz : Int) (st₁ : DecState α)
    (scratch : Nat → α) (N : Int) (C : Nat) (st₂ st' : DecState α) (buf : List α)
    (hC : 0 < C) (hoff : st₂.outputOffset = -(C : Int))
    (hbuf : st₂.audioBuffer = some buf) (hN : 0 < N)
    (hw : WriteOutput scratch N st₂ = .ok () st') :
    ParseDelay data p sz st₁ =
      .ok () { st₁ with outputOffset := -(nsToSamples48 (ReadVInt data p sz 255)) } ∧
    st'.outputOffset = -(C : Int) + N ∧
    st'.audioBuffer = some (setAt buf 0
      ((List.range (N - C).toNat).map (fun i => scratch (C + i)))) := by
  refine ⟨rfl, ?_⟩
  rw [WriteOutput, hoff, hbuf] at hw
  by_cases hpos : N + -(C : Int) > 0
  · rw [if_pos hpos] at hw
    simp only at hw
    have hneg : -(C : Int) < 0 := by omega
    rw [if_pos hneg] at hw
    have htn : ((C : Int)).toNat = C := by omega
    simp only [neg_neg, htn] at hw
    split at hw
    · exact absurd hw (by simp)
    · next hover =>
      injection hw with h1 h2
      subst h2
      have he : N.toNat - C = (N - (C : Int)).toNat := by omega
      constructor
      · simp
      · simp only [he]
  · rw [if_neg hpos] at hw
    injection hw with h1 h2
    subst h2
    have he : (N - (C : Int)).toNat = 0 := by omega
    constructor
    · simp
    · simp [he, setAt_zero_nil, hbuf]

/-- Claim C1 witness: a CodecDelay of 120000000 ns sets the cursor to
-5760; a 3-sample frame written at cursor -2 stores exactly 1 sample
(the frame's third decoded sample, value 102) at index 0 and the cursor
advances to 1. -/
theorem codecDelay_write_cursor_witness :
    WriteOutput (fun j => (100 + j : Int)) 3 ⟨none, some [5, 6, 7], -2⟩ =
      .ok () ⟨none, some [102, 6, 7], 1⟩ ∧
    ParseDelay (bytesOf [7, 39, 14, 0]) 0 4 st0 =
      .ok () { st0 with
        outputOffset := -(nsToSamples48 (ReadVInt (bytesOf [7, 39, 14, 0]) 0 4 255)) } ∧
    (⟨none, some [102, 6, 7], 1⟩ : DecState Int).outputOffset = -((2 : Nat) : Int) + 3 := by
  have h := codecDelay_write_cursor (bytesOf [7, 39, 14, 0]) 0 4 st0
    (fun j => (100 + j : Int)) 3 2 ⟨none, some [5, 6, 7], -2⟩ ⟨none, some [102, 6, 7], 1⟩
    [5, 6, 7] (by decide) rfl rfl (by decide) (by decide)
  exact ⟨by decide, h.1, h.2.1⟩

/-- Claim C3: with a buffer allocated, a frame write whose end
(`cursor + decodedSamples`) passes the buffer length fails with the Buffer
Overflow error and returns the untouched pre-call state (the bounds check
precedes the store); and every non-failing write leaves the cursor at most
the (unchanged) buffer length. -/
theorem write_overflow_guard (scratch : Nat → α) (ret : Int) (st : DecState α)
    (buf : List α) (hbuf : st.audioBuffer = some buf) (hret : 0 < ret) :
    ((buf.length : Int) < st.outputOffset + ret →
      WriteOutput scratch ret st = .err .bufferOverflow st) ∧
    (∀ st', WriteOutput scratch ret st = .ok () st' →
      ∃ buf', st'.audioBuffer = some buf' ∧ buf'.length = buf.length ∧
        st'.outputOffset ≤ (buf'.length : Int)) := by
  constructor
  · intro hover
    have hpos : ret + st.outputOffset > 0 := by
      have := Int.natCast_nonneg buf.length
      omega
    rw [WriteOutput, if_pos hpos, hbuf]
    by_cases hneg : st.outputOffset < 0
    · rw [if_pos hneg]
      simp only [List.length_map, List.length_range]
      rw [if_pos (by omega)]
    · rw [if_neg hneg]
      simp only [List.length_map, List.length_range]
      rw [if_pos (by omega)]
  · intro st' hw
    rw [WriteOutput, hbuf] at hw
    by_cases hpos : ret + st.outputOffset > 0
    · rw [if_pos hpos] at hw
      by_cases hneg : st.outputOffset < 0
      · rw [if_pos hneg] at hw
        simp only [List.length_map, List.length_range] at hw
        split at hw
        · exact absurd hw (by simp)
        · next hover =>
          injection hw with h1 h2
          subst h2
          refine ⟨_, rfl, ?_, ?_⟩
          · exact setAt_length _ _ _ (by simpa using Nat.le_of_not_lt hover)
          · rw [setAt_length _ _ _ (by simpa using Nat.le_of_not_lt hover)]
            simp only [List.length_map, List.length_range] at hover ⊢
            omega
      · rw [if_neg hneg] at hw
        simp only [List.length_map, List.length_range] at hw
        split at hw
        · exact absurd hw (by simp)
        · next hover =>
          injection hw with h1 h2
          subst h2
          refine ⟨_, rfl, ?_, ?_⟩
          · exact setAt_length _ _ _ (by simpa using Nat.le_of_not_lt hover)
          · rw [setAt_length _ _ _ (by simpa using Nat.le_of_not_lt hover)]
            simp only [List.length_map, List.length_range] at hover ⊢
            omega
    · rw [if_neg hpos] at hw
      injection hw with h1 h2
      subst h2
      refine ⟨buf, rfl, rfl, ?_⟩
      have := Int.natCast_nonneg buf.length
      simp only
      omega

/-- Claim C3 witness: writing 5 samples at cursor 0 into a 3-sample buffer
fails with Buffer Overflow and the untouched state; writing 2 samples
succeeds and the cursor 2 stays at most the unchanged length 3. -/
theorem write_overflow_guard_witness :
    WriteOutput (fun j => (j : Int)) 5 ⟨none, some [1, 2, 3], 0⟩ =
      .err .bufferOverflow ⟨none, some [1, 2, 3], 0⟩ ∧
    ∃ buf', (⟨none, some [0, 1, 3], 2⟩ : DecState Int).audioBuffer = some buf' ∧
      buf'.length = [1, 2, 3].length ∧
      (⟨none, some [0, 1, 3], 2⟩ : DecState Int).outputOffset ≤ (buf'.length : Int) := by
  constructor
  · exact (write_overflow_guard (fun j => (j : Int)) 5 ⟨none, some [1, 2, 3], 0⟩
      [1, 2, 3] rfl (by decide)).1 (by decide)
  · exact (write_overflow_guard (fun j => (j : Int)) 2 ⟨none, some [1, 2, 3], 0⟩
      [1, 2, 3] rfl (by decide)).2 ⟨none, some [0, 1, 3], 2⟩ (by decide)

theorem calcBufferSize_eq (x : ℚ) : CalculateAudioBufferSize 48000 1 x = x * 48 := by
  unfold CalculateAudioBufferSize
  norm_num
  ring

theorem decodeFloat32_zeros (data : Bytes) (p : Int)
    (b3 : byteAt data p = 0) (b4 : byteAt data (p + 1) = 0)
    (b5 : byteAt data (p + 2) = 0) (b6 : byteAt data (p + 3) = 0) :
    decodeFloat32 data p = some 0 := by
  unfold decodeFloat32
  rw [b3, b4, b5, b6]
  norm_num

/-- Claim C4: a Duration field of any size other than 4 or 8 bytes fails
the job; on success with a (finite) duration of `q` milliseconds, the
allocated output buffer length equals
`CalculateAudioBufferSize(48000, 1, q + 120) = (q + 120) * 48` samples. -/
theorem duration_field_size_and_allocation (O : Oracle α) (data : Bytes)
    (p size : Int) (st : DecState α) :
    (size ≠ 4 → size ≠ 8 → ParseDuration O data p size st = .err .invalidSize st) ∧
    (∀ q st', size = 4 → decodeFloat32 data p = some q →
      ParseDuration O data p size st = .ok () st' →
      ∃ buf, st'.audioBuffer = some buf ∧
        (buf.length : ℚ) = CalculateAudioBufferSize 48000 1 (q + 120) ∧
        (buf.length : ℚ) = (q + 120) * 48) ∧
    (∀ q st', size = 8 → decodeFloat64 data p = some q →
      ParseDuration O data p size st = .ok () st' →
      ∃ buf, st'.audioBuffer = some buf ∧
        (buf.length : ℚ) = CalculateAudioBufferSize 48000 1 (q + 120) ∧
        (buf.length : ℚ) = (q + 120) * 48) := by
  have main : ∀ (q : ℚ) (st' : DecState α), CreateDecoder O (some q) st = .ok () st' →
      ∃ buf, st'.audioBuffer = some buf ∧
        (buf.length : ℚ) = CalculateAudioBufferSize 48000 1 (q + 120) ∧
        (buf.length : ℚ) = (q + 120) * 48 := by
    intro q st' hok
    rw [CreateDecoder] at hok
    simp only at hok
    split at hok
    · next hcond =>
      split at hok
      · exact absurd hok (by simp)
      · injection hok with h1 h2
        subst h2
        refine ⟨_, rfl, ?_⟩
        have hlen : ((List.replicate
            (CalculateAudioBufferSize 48000 1 (q + 120)).num.toNat O.zero).length : ℚ) =
            CalculateAudioBufferSize 48000 1 (q + 120) := by
          rw [List.length_replicate]
          have h1 : (((CalculateAudioBufferSize 48000 1 (q + 120)).num.toNat : ℤ) : ℚ) =
              (((CalculateAudioBufferSize 48000 1 (q + 120)).num : ℤ) : ℚ) := by
            rw [Int.toNat_of_nonneg hcond.2]
          have h2 := Rat.coe_int_num_of_den_eq_one hcond.1
          push_cast at h1
          rw [h1] at *
          exact h2
        exact ⟨hlen, by rw [hlen, calcBufferSize_eq]⟩
    · exact absurd hok (by simp)
  refine ⟨?_, ?_, ?_⟩
  · intro h4 h8
    rw [ParseDuration, if_neg h4, if_neg h8]
  · intro q st' hsz hq hok
    subst hsz
    rw [ParseDuration, if_pos rfl, hq] at hok
    exact main q st' hok
  · intro q st' hsz hq hok
    subst hsz
    rw [ParseDuration, if_neg (by norm_num), if_pos rfl, hq] at hok
    exact main q st' hok

/-- Claim C4 witness: a 5-byte Duration field fails with the invalid-size
error; a 4-byte field holding 0.0f allocates `(0 + 120) * 48 = 5760`
samples. -/
theorem duration_field_size_and_allocation_witness :
    ParseDuration O0 (bytesOf [0, 0, 0, 0]) 0 5 st0 = .err .invalidSize st0 ∧
    ∃ buf, (⟨some 1, some (List.replicate 5760 (0 : Int)), 0⟩ :
        DecState Int).audioBuffer = some buf ∧
      (buf.length : ℚ) = CalculateAudioBufferSize 48000 1 (0 + 120) ∧
      (buf.length : ℚ) = (0 + 120) * 48 := by
  constructor
  · exact (duration_field_size_and_allocation O0 (bytesOf [0, 0, 0, 0]) 0 5 st0).1
      (by decide) (by decide)
  · exact (duration_field_size_and_allocation O0 (bytesOf [0, 0, 0, 0]) 0 4 st0).2.1 0
      ⟨some 1, some (List.replicate 5760 0), 0⟩ rfl
      (decodeFloat32_zeros (bytesOf [0, 0, 0, 0]) 0 (by decide) (by decide) (by decide)
        (by decide))
      (ParseDuration_zero_eval (bytesOf [0, 0, 0, 0]) 0 st0 (by decide) (by decide)
        (by decide) (by decide))

theorem c10_job_eval : OpusDecode O0 20 c10data 14 st0 =
    .ok [] { decoder := none, audioBuffer := none, outputOffset := 0 } := by
  rw [OpusDecode, c10_walk_eval]
  norm_num [DestroyDecoder, c10FinalState, sliceSamples]

/-- Claim C10 counterexample: on `c10data` the walk completes with the
cursor at -5760 and a 5760-sample buffer allocated (5760 * 4 bytes), so the
claim predicts a non-empty result of `bufferLengthBytes + 4 * (-5760) = 0`
bytes — contradictory in itself — while the job actually returns the empty
buffer. -/
theorem negative_cursor_empty_output :
    resVal (ParseMaster O0 20 c10data 0 14 st0) = some () ∧
    (resState (ParseMaster O0 20 c10data 0 14 st0)).outputOffset = -5760 ∧
    resVal (OpusDecode O0 20 c10data 14 st0) = some ([] : List Int) := by
  refine ⟨?_, ?_, ?_⟩
  · rw [c10_walk_eval]
    rfl
  · rw [c10_walk_eval]
    rfl
  · rw [c10_job_eval]
    rfl

/-- Claim C10 (amended): if the walk completes with a negative cursor `c`
and an allocated buffer of `L` samples, the job does not fail:
`_audioBuffer.buffer.slice(0, c * 4)` resolves the negative byte end
relative to the buffer's byte length and clamps it, so the job returns the
first `max(0, L + c)` samples of the (never-written) buffer — byte length
`max(0, bufferLengthBytes + 4c)` — which is empty whenever `-c ≥ L`. -/
theorem negative_cursor_finalize_clamped (O : Oracle α) (fuel : Nat) (data : Bytes)
    (byteLength : Int) (st st₁ : DecState α) (buf : List α) (out : List α)
    (hp : ParseMaster O fuel data 0 byteLength st = .ok () st₁)
    (hbuf : st₁.audioBuffer = some buf) (hneg : st₁.outputOffset < 0)
    (hout : resVal (OpusDecode O fuel data byteLength st) = some out) :
    out = buf.take ((buf.length : Int) + st₁.outputOffset).toNat ∧
    (out.length : Int) = max ((buf.length : Int) + st₁.outputOffset) 0 := by
  rw [OpusDecode, hp] at hout
  simp only [DestroyDecoder, hbuf] at hout
  rw [resVal] at hout
  injection hout with hout
  rw [sliceSamples, if_pos hneg] at hout
  have hmax : (max ((buf.length : Int) + st₁.outputOffset) 0).toNat =
      ((buf.length : Int) + st₁.outputOffset).toNat := by
    rcases le_total ((buf.length : Int) + st₁.outputOffset) 0 with h | h
    · rw [max_eq_right h]
      omega
    · rw [max_eq_left h]
  rw [hmax] at hout
  refine ⟨hout.symm, ?_⟩
  rw [← hout]
  rw [List.length_take]
  rcases le_total ((buf.length : Int) + st₁.outputOffset) 0 with h | h
  · rw [max_eq_right h]
    omega
  · rw [max_eq_left h]
    omega

/-- Claim C10 (amended) witness: on `c10data` the final cursor -5760 equals
the buffer length, so the clamped slice is empty. -/
theorem negative_cursor_finalize_clamped_witness :
    ([] : List Int) = (List.replicate 5760 (0 : Int)).take
      (((List.replicate 5760 (0 : Int)).length : Int) + c10FinalState.outputOffset).toNat ∧
    (([] : List Int).length : Int) =
      max (((List.replicate 5760 (0 : Int)).length : Int) + c10FinalState.outputOffset) 0 :=
  negative_cursor_finalize_clamped O0 20 c10data 14 st0 c10FinalState
    (List.replicate 5760 0) [] c10_walk_eval rfl (by decide)
    (by rw [c10_job_eval]; rfl)
